import Mathlib

/-!
Verification of the PointCloud-to-Mesh-Convertor pipeline.

The repository is a Python program built around a point-cloud container of
(x, y, z) coordinate triples.  We embed the coordinate arithmetic over `ℚ`
(exact rational arithmetic in place of IEEE doubles: all the claims under
study are control-flow, counting or algebraic-invariance statements, none
hinge on rounding).  Square roots of rationals are irrational in general, so
wherever the source takes a Euclidean norm we either work with squared
norms or pass the root as an explicit parameter constrained by its defining
equation; each such spot is documented at the definition.

Stateful Python code (in-place numpy mutation through views of the cloud's
buffer) is embedded by explicit heap passing; fallible code returns
`Except`.  Randomness (`np.random.uniform`) enters as an explicit sample
function argument.
-/

/-- A 3-D point: the `(x, y, z)` rows of the numpy arrays in the source. -/
abbrev Point3 : Type := ℚ × ℚ × ℚ

/-- Squared Euclidean norm of a point (the square of `np.linalg.norm`). -/
def normSq (p : Point3) : ℚ := p.1 ^ 2 + p.2.1 ^ 2 + p.2.2 ^ 2

/-- Dot product of two coordinate triples. -/
def dot3 (p q : Point3) : ℚ := p.1 * q.1 + p.2.1 * q.2.1 + p.2.2 * q.2.2

/-- Squared Euclidean distance between two points. -/
def dist2 (p q : Point3) : ℚ := normSq (p - q)

/-- `points.mean(axis=0)` from `preprocess_point_cloud` in `creator.py`:
the componentwise mean of the rows.  (For the empty list the `ℚ` convention
`x / 0 = 0` gives the zero point; the source never takes the mean of an
empty array on the paths under study.) -/
def centroid (cloud : List Point3) : Point3 := ((cloud.length : ℚ))⁻¹ • cloud.sum

/-- `points -= center` from `preprocess_point_cloud` in `creator.py`:
translate every point by minus the centroid. -/
def centerCloud (cloud : List Point3) : List Point3 :=
  cloud.map (fun p => p - centroid cloud)

/-- `np.max(np.linalg.norm(points, axis=1))` from `preprocess_point_cloud`,
carried in squared form: the largest squared norm of any row (`0` for the
empty array; norms are nonnegative so the `0` base is neutral). -/
def maxNormSq (cloud : List Point3) : ℚ := (cloud.map normSq).foldr max 0

/-- `points /= scale` from `preprocess_point_cloud` applied after the
centering step: the full centering-and-scaling ("normalize") stage.  The
source's `scale = np.max(np.linalg.norm(points, axis=1))` is the square
root of `maxNormSq (centerCloud cloud)`, which is irrational for general
rational input, so the scale is passed as the explicit parameter `s`; every
theorem about this definition constrains `s` by the defining equation
`s ^ 2 = maxNormSq (centerCloud cloud)` (with `0 ≤ s`). -/
def normalizeWith (s : ℚ) (cloud : List Point3) : List Point3 :=
  (centerCloud cloud).map (fun p => s⁻¹ • p)

/-- The fixed tetrahedron vertices of `generate_tetrahedron_point_cloud`
(`utils.py` / `pyramid_pc.py`): base triangle plus apex. -/
def tetraVertices : List Point3 := [(0, 0, 0), (1, 0, 0), (0, 1, 0), (1/2, 1/2, 1)]

/-- The four faces (vertex-index triples) of the tetrahedron, in source order. -/
def tetraFaces : List (ℕ × ℕ × ℕ) := [(0, 1, 3), (1, 2, 3), (2, 0, 3), (0, 2, 1)]

/-- The reflection step of the barycentric sampler: `(u, v)` pairs with
`u + v > 1` are replaced by `(1 - u, 1 - v)`, keeping the sample inside the
triangle (the `mask` assignment in the source). -/
def reflectUV (uv : ℚ × ℚ) : ℚ × ℚ :=
  if 1 < uv.1 + uv.2 then (1 - uv.1, 1 - uv.2) else uv

/-- One barycentric sample on a triangle: `w*v0 + u*v1 + v*v2` with
`w = 1 - u - v`, after reflection of the raw `(u, v)` pair. -/
def baryPoint (v0 v1 v2 : Point3) (uv : ℚ × ℚ) : Point3 :=
  let u := (reflectUV uv).1
  let v := (reflectUV uv).2
  (1 - u - v) • v0 + u • v1 + v • v2

/-- The per-face sampling loop: `points_per_face` barycentric samples on
face number `fIdx`, with the random `(u, v)` pairs supplied by `rand`
(standing for `np.random.uniform(0, 1, points_per_face)`). -/
def facePoints (rand : ℕ → ℕ → ℚ × ℚ) (ppf : ℕ) (fIdx : ℕ) (face : ℕ × ℕ × ℕ) :
    List Point3 :=
  (List.range ppf).map (fun t =>
    baryPoint (tetraVertices.get! face.1) (tetraVertices.get! face.2.1)
      (tetraVertices.get! face.2.2) (rand fIdx t))

/-- `np.vstack(all_points)`: the concatenation of the four per-face sample
lists, `ppf = num_points // 4` samples each. -/
def tetraSamplePoints (rand : ℕ → ℕ → ℚ × ℚ) (ppf : ℕ) : List Point3 :=
  tetraFaces.enum.flatMap (fun fi => facePoints rand ppf fi.1 fi.2)

/-- `generate_tetrahedron_point_cloud(num_points)` from
`point_cloud_processor/utils.py` (identical in `pyramid_pc.py`): sample
`n // 4` points per face, then truncate if above `n` or pad with a prefix
copy if below. -/
def generate_tetrahedron_point_cloud (n : ℕ) (rand : ℕ → ℕ → ℚ × ℚ) : List Point3 :=
  let pts := tetraSamplePoints rand (n / 4)
  if pts.length > n then pts.take n
  else if pts.length < n then pts ++ pts.take (n - pts.length)
  else pts

/-- Membership in the convex hull of the four fixed tetrahedron vertices. -/
def inTetraHull (p : Point3) : Prop :=
  ∃ a b c d : ℚ, 0 ≤ a ∧ 0 ≤ b ∧ 0 ≤ c ∧ 0 ≤ d ∧ a + b + c + d = 1 ∧
    p = a • ((0, 0, 0) : Point3) + b • ((1, 0, 0) : Point3) +
        c • ((0, 1, 0) : Point3) + d • ((1/2, 1/2, 1) : Point3)

/-- Exception kinds observable from `load_point_cloud` (`creator.py` and
`point_cloud_processor/utils.py`).  The spec's names map as follows:
`NotFoundError` = `notFound` (Python `FileNotFoundError`), `FormatError` =
`formatUnsupported` or `formatMalformed` (the two `ValueError` paths),
`EmptyResultError` = `emptyResult` (the `ValueError` of the `.pcd` branch
when no points load); `containerShape` is the distinct `RuntimeError`
raised by the `Vector3dVector` point-container constructor on an array of
the wrong shape, which the source does not catch. -/
inductive LoadError
  | notFound
  | formatUnsupported
  | formatMalformed
  | emptyResult
  | containerShape
  deriving DecidableEq

/-- Shape of the array `np.loadtxt` produces: a single data row (or none)
is squeezed to a 1-D array; two or more rows give a 2-D array. -/
inductive NpArray
  | oneD (row : List ℚ)
  | twoD (rows : List (List ℚ))
  deriving DecidableEq

/-- `np.loadtxt(file_path, delimiter=' ')` on the tokenized lines of the
file (`none` stands for a token that does not parse as a float).  Modelled
from numpy's documented behaviour: empty lines are skipped; any
unparseable token or inconsistent column count raises `ValueError`
(`formatMalformed`); zero data rows give an empty 1-D array, one data row
is squeezed to 1-D, and two or more rows form a 2-D array. -/
def npLoadtxt (lines : List (List (Option ℚ))) : Except LoadError NpArray :=
  let rows := lines.filter (fun l => !l.isEmpty)
  if rows.any (fun l => l.any (fun t => t.isNone)) then .error .formatMalformed
  else
    let vals := rows.map (fun l => l.filterMap id)
    match vals with
    | [] => .ok (.oneD [])
    | r :: rest =>
        if rest.any (fun l => l.length ≠ r.length) then .error .formatMalformed
        else match rest with
          | [] => .ok (.oneD r)
          | _ :: _ => .ok (.twoD (r :: rest))

/-- Modelled from the spec: the point-container constructor
(`o3d.utility.Vector3dVector`), which is not part of this repository's
sources.  Per the spec's description of the container (triples of doubles)
and the observed constructor contract cited by the claims, it accepts
exactly the 2-D arrays with three columns and rejects any other shape
(in particular every 1-D array) with a `RuntimeError`. -/
def vector3dVector (arr : NpArray) : Except LoadError (List Point3) :=
  match arr with
  | .oneD _ => .error .containerShape
  | .twoD rows =>
      match rows.mapM (fun r =>
        match r with
        | [x, y, z] => some ((x, y, z) : Point3)
        | _ => none) with
      | some pts => .ok pts
      | none => .error .containerShape

/-- The state of the file at the path handed to `load_point_cloud`: absent,
a `.xyz` text file with its tokenized lines, a `.pcd` file with the point
list the external loader collaborator yields for it, or a file with any
other extension.  (The source checks existence before the extension, so a
missing path is one case regardless of extension.) -/
inductive FileState
  | missing
  | xyzFile (lines : List (List (Option ℚ)))
  | pcdFile (points : List Point3)
  | otherExt

/-- `load_point_cloud(file_path)` from `creator.py` (the copy in
`point_cloud_processor/utils.py` is line-for-line the same logic):
missing path raises `FileNotFoundError`; a `.xyz` path goes through
`np.loadtxt` and the `Vector3dVector` constructor; a `.pcd` path delegates
to the external reader and raises `ValueError` when it yields no points;
any other extension raises `ValueError` (unsupported format). -/
def load_point_cloud (f : FileState) : Except LoadError (List Point3) :=
  match f with
  | .missing => .error .notFound
  | .xyzFile lines => npLoadtxt lines >>= vector3dVector
  | .pcdFile pts => if pts.isEmpty then .error .emptyResult else .ok pts
  | .otherExt => .error .formatUnsupported

/-- Modelled from the spec: `voxel_down_sample` (the Open3D call in
`preprocess_point_cloud`, whose implementation is not part of this
repository).  Per the spec's Preprocessor design, space is partitioned
into a uniform grid of edge `voxelSize`; a point's cell is the triple of
floors of its coordinates divided by the edge. -/
def voxelIdx (v : ℚ) (p : Point3) : ℤ × ℤ × ℤ :=
  (⌊p.1 / v⌋, ⌊p.2.1 / v⌋, ⌊p.2.2 / v⌋)

/-- Modelled from the spec: `downsample(cloud, voxelSize)` replaces each
occupied cell by the centroid of its contained points; the output order,
unspecified in the spec, is the order the cell-index dedup yields. -/
def voxel_down_sample (cloud : List Point3) (v : ℚ) : List Point3 :=
  ((cloud.map (voxelIdx v)).dedup).map
    (fun key => centroid (cloud.filter (fun p => decide (voxelIdx v p = key))))

/-- The fixed hybrid-search radius of `orient_normals`
(`KDTreeSearchParamHybrid(radius=0.1, max_nn=k)`), carried squared:
`0.1 ^ 2 = 1/100`. -/
def searchRadius2 : ℚ := 1/100

/-- Modelled from the spec: the hybrid neighborhood gathering of
`estimateAndOrient` (the normal-estimation core lives in the external
library, not in this repository): the usable neighbors of point `i` are
the other points within the fixed search radius, capped at the `k` nearest
(`max_nn=k`); index order stands in for the unspecified tie order, which
no claim depends on — only the count matters. -/
def usableNbrs (cloud : List Point3) (k : ℕ) (i : ℕ) : List ℕ :=
  ((List.range cloud.length).filter
    (fun j => decide (j ≠ i ∧ dist2 (cloud.get! i) (cloud.get! j) ≤ searchRadius2))).take k

/-- Per-point outcome of normal estimation.  A local plane fit is the
eigen-decomposition of the neighborhood covariance, whose eigenvector is
an algebraic (generally irrational) function of the neighborhood; the
`estimated` constructor therefore records the neighborhood the fit is a
function of — the claims under study only distinguish `degenerate` from
`estimated`. -/
inductive PtResult
  | degenerate
  | estimated (nbrs : List ℕ)
  deriving DecidableEq, Inhabited

/-- Modelled from the spec: `estimateAndOrient(cloud, k)` (the repository's
`orient_normals` delegates this wholesale to the external library).  Per
the spec's NormalEstimator design: for each point, gather the hybrid
neighborhood; a point with fewer than 3 usable neighbors gets a
`DegenerateNeighborhoodError` (`degenerate`) and estimation continues with
the remaining points, which get a plane fit from their neighborhoods. -/
def estimateAndOrient (cloud : List Point3) (k : ℕ) : List PtResult :=
  (List.range cloud.length).map
    (fun i => if (usableNbrs cloud k i).length < 3 then PtResult.degenerate
              else PtResult.estimated (usableNbrs cloud k i))

/-- The mutable Open3D point-cloud object as the source uses it: positions
plus the optional normals attached by estimation (the estimation outcome
per point stands in for the numeric normal vectors, see `PtResult`). -/
structure PCDData where
  points : List Point3
  normals : Option (List PtResult)
  deriving DecidableEq, Inhabited

/-- The Python heap restricted to point-cloud objects; a reference is an
index into the allocation list, and allocation appends. -/
abbrev Heap := List PCDData

/-- `orient_normals(pcd)` from `creator.py` (and `utils.py` with `k = 30`):
`estimate_normals` and `orient_normals_consistent_tangent_plane` both
mutate the cloud object in place, attaching normals; `return pcd` then
returns the very same reference. -/
def orient_normals (h : Heap) (r : ℕ) : Heap × ℕ :=
  (h.set r { h.get! r with
      normals := some (estimateAndOrient (h.get! r).points 30) }, r)

/-- `preprocess_point_cloud(pcd)` from `creator.py`.
`points = np.asarray(pcd.points)` is a shared-memory view of the input
cloud's buffer, so `points -= center` and `points /= scale` mutate the
input object in place; `pcd.points = Vector3dVector(points)` re-assigns
the same values; `pcd = pcd.voxel_down_sample(voxel_size=0.01)` allocates
a fresh cloud, which is what the function returns.  As in `normalizeWith`,
the irrational scale is passed as the parameter `s`. -/
def preprocess_point_cloud (s : ℚ) (h : Heap) (r : ℕ) : Heap × ℕ :=
  let pcd := h.get! r
  let centered := centerCloud pcd.points
  let h1 := h.set r { pcd with points := centered }
  let scaled := centered.map (fun p => s⁻¹ • p)
  let h2 := h1.set r { pcd with points := scaled }
  let downPcd : PCDData := { points := voxel_down_sample scaled (1/100), normals := none }
  (h2 ++ [downPcd], h2.length)

/-- A triangle mesh: vertex positions and triangles as vertex-index
triples (the repository's Open3D `TriangleMesh` as the claims use it). -/
structure Mesh where
  vertices : List Point3
  triangles : List (ℕ × ℕ × ℕ)
  deriving Inhabited

/-- Componentwise minimum of two points (for the bounding box). -/
def pmin (a b : Point3) : Point3 := (min a.1 b.1, min a.2.1 b.2.1, min a.2.2 b.2.2)

/-- Componentwise maximum of two points (for the bounding box). -/
def pmax (a b : Point3) : Point3 := (max a.1 b.1, max a.2.1 b.2.1, max a.2.2 b.2.2)

/-- One coordinate of a uniform-grid cell index over `[lo, hi]` divided
into `n` slots, clamped into range (boundary samples land in the last
cell; a degenerate axis maps everything to slot 0 via the `x / 0 = 0`
convention). -/
def cellCoord (lo hi : ℚ) (n : ℕ) (x : ℚ) : ℤ :=
  min ((n : ℤ) - 1) (max 0 ⌊(x - lo) / ((hi - lo) / (n : ℚ))⌋)

/-- The grid cell of a point. -/
def cellOf (lo hi : Point3) (n : ℕ) (p : Point3) : ℤ × ℤ × ℤ :=
  (cellCoord lo.1 hi.1 n p.1, cellCoord lo.2.1 hi.2.1 n p.2.1,
    cellCoord lo.2.2 hi.2.2 n p.2.2)

/-- The occupied cells of the grid (each cell listed once). -/
def poissonCells (cloud : List Point3) (lo hi : Point3) (n : ℕ) : List (ℤ × ℤ × ℤ) :=
  (cloud.map (cellOf lo hi n)).dedup

/-- Whether a cell index lies inside the `n × n × n` grid. -/
def inGrid (n : ℕ) (c : ℤ × ℤ × ℤ) : Bool :=
  decide (0 ≤ c.1 ∧ c.1 < (n : ℤ) ∧ 0 ≤ c.2.1 ∧ c.2.1 < (n : ℤ) ∧
    0 ≤ c.2.2 ∧ c.2.2 < (n : ℤ))

/-- The six axis directions to neighbouring cells. -/
def neighborDirs : List (ℤ × ℤ × ℤ) :=
  [(1, 0, 0), (-1, 0, 0), (0, 1, 0), (0, -1, 0), (0, 0, 1), (0, 0, -1)]

/-- The isosurface faces of the occupancy field: one face for each pair of
an occupied cell and an in-grid unoccupied neighbour. -/
def poissonFaces (cells : List (ℤ × ℤ × ℤ)) (n : ℕ) :
    List ((ℤ × ℤ × ℤ) × (ℤ × ℤ × ℤ)) :=
  cells.flatMap (fun c =>
    (neighborDirs.filter
      (fun d => inGrid n (c + d) && decide ((c + d) ∉ cells))).map (fun d => (c, d)))

/-- The position of a grid corner. -/
def cellCorner (lo hi : Point3) (n : ℕ) (c : ℤ × ℤ × ℤ) : Point3 :=
  (lo.1 + c.1 * ((hi.1 - lo.1) / (n : ℚ)),
   lo.2.1 + c.2.1 * ((hi.2.1 - lo.2.1) / (n : ℚ)),
   lo.2.2 + c.2.2 * ((hi.2.2 - lo.2.2) / (n : ℚ)))

/-- The four corners of the face shared by cell `c` and cell `c + d`. -/
def faceCorners (lo hi : Point3) (n : ℕ) (c d : ℤ × ℤ × ℤ) : List Point3 :=
  let base : ℤ × ℤ × ℤ := (c.1 + max d.1 0, c.2.1 + max d.2.1 0, c.2.2 + max d.2.2 0)
  let uv : (ℤ × ℤ × ℤ) × (ℤ × ℤ × ℤ) :=
    if d.1 ≠ 0 then ((0, 1, 0), (0, 0, 1))
    else if d.2.1 ≠ 0 then ((1, 0, 0), (0, 0, 1))
    else ((1, 0, 0), (0, 1, 0))
  [cellCorner lo hi n base, cellCorner lo hi n (base + uv.1),
   cellCorner lo hi n (base + uv.1 + uv.2), cellCorner lo hi n (base + uv.2)]

/-- Modelled from the spec: `poisson_reconstruction(pcd, depth)`
(`create_from_point_cloud_poisson` lives in the external library, not in
this repository).  Per the spec's PoissonReconstructor design, an octree
of `depth` levels is built over the cloud's bounding box — embedded as the
full uniform grid of resolution `2 ^ depth` — the indicator field is
fitted from the samples — embedded as cell occupancy — and the isosurface
near the sample-density level is extracted by cell-local polygonization —
embedded as two triangles per face between an occupied cell and an
unoccupied in-grid neighbour.  The operation is total: every input, empty
clouds and degenerate depths included, yields a mesh, possibly with zero
triangles, never an error. -/
def poisson_reconstruction (cloud : List Point3) (depth : ℕ) : Mesh :=
  match cloud with
  | [] => ⟨[], []⟩
  | p :: ps =>
      let lo := ps.foldl pmin p
      let hi := ps.foldl pmax p
      let n := 2 ^ depth
      let faces := poissonFaces (poissonCells (p :: ps) lo hi n) n
      { vertices := faces.flatMap (fun cd => faceCorners lo hi n cd.1 cd.2),
        triangles := (List.range faces.length).flatMap
          (fun i => [(4*i, 4*i+1, 4*i+2), (4*i, 4*i+2, 4*i+3)]) }

/-- What `main` in `creator.py` does with the Poisson result. -/
inductive MainAction
  | exportMesh
  | reportFailure
  deriving DecidableEq

/-- The caller-side check in `main` (`creator.py`):
`if poisson_mesh.has_triangles(): write + visualize else: print failure` —
the empty mesh is handled as a flagged signal, not an exception. -/
def mainPoissonHandling (m : Mesh) : MainAction :=
  if 0 < m.triangles.length then MainAction.exportMesh else MainAction.reportFailure

/-- `pcd.compute_nearest_neighbor_distance()` carried squared: the squared
distance from point `i` to its nearest other point (`0` when the cloud has
fewer than two points). -/
def nnDist2 (cloud : List Point3) (i : ℕ) : ℚ :=
  match ((List.range cloud.length).filter (fun j => decide (j ≠ i))).map
      (fun j => dist2 (cloud.get! i) (cloud.get! j)) with
  | [] => 0
  | d :: ds => ds.foldl min d

/-- `np.mean(distances)` from `ball_pivoting_reconstruction`, carried in
squared form: the mean of the squared nearest-neighbor distances (the
source averages the Euclidean distances themselves, whose square roots
are irrational over `ℚ`; the squared-mean representative preserves the
positive-degree-2 homogeneity in the cloud that the scale-invariance
claim rests on, and the claims never inspect the numeric value itself).
For the empty cloud the `ℚ` convention `x / 0 = 0` yields `0` (the source
produces NaN there from `np.mean([])`). -/
def avgNNDist2 (cloud : List Point3) : ℚ :=
  ((List.range cloud.length).map (nnDist2 cloud)).sum / (cloud.length : ℚ)

/-- Gram determinant of the edge pair of a point triple; zero exactly for
degenerate (collinear) triples, which admit no circumscribed ball. -/
def circumDet (a b c : Point3) : ℚ :=
  dot3 (b - a) (b - a) * dot3 (c - a) (c - a) - dot3 (b - a) (c - a) * dot3 (b - a) (c - a)

/-- First barycentric coefficient of the circumcenter. -/
def circumAlpha (a b c : Point3) : ℚ :=
  dot3 (c - a) (c - a) * (dot3 (b - a) (b - a) - dot3 (b - a) (c - a)) /
    (2 * circumDet a b c)

/-- Second barycentric coefficient of the circumcenter. -/
def circumBeta (a b c : Point3) : ℚ :=
  dot3 (b - a) (b - a) * (dot3 (c - a) (c - a) - dot3 (b - a) (c - a)) /
    (2 * circumDet a b c)

/-- Circumcenter of a nondegenerate point triple (the point of the
triple's plane equidistant from all three). -/
def circumCenter (a b c : Point3) : Point3 :=
  a + circumAlpha a b c • (b - a) + circumBeta a b c • (c - a)

/-- Squared circumradius of a nondegenerate point triple. -/
def circumR2 (a b c : Point3) : ℚ :=
  normSq (circumAlpha a b c • (b - a) + circumBeta a b c • (c - a))

/-- Circumcenter and squared circumradius, or `none` for a degenerate
triple. -/
def circumData (a b c : Point3) : Option (Point3 × ℚ) :=
  if circumDet a b c = 0 then none
  else some (circumCenter a b c, circumR2 a b c)

/-- Modelled from the spec: acceptability of a candidate triangle for a
ball of squared radius `r2` — three distinct indices whose triple is
nondegenerate, whose circumscribing ball of the pivot radius can touch
all three (squared circumradius at most `r2`), and whose ball encloses no
other point of the cloud (no other point strictly within the pivot radius
of the circumcenter; the ball is represented by its in-plane section
through the three touch points). -/
def triOk (cloud : List Point3) (r2 : ℚ) (i j k : ℕ) : Bool :=
  decide (i ≠ j) && decide (j ≠ k) && decide (i ≠ k) &&
  match circumData (cloud.get! i) (cloud.get! j) (cloud.get! k) with
  | none => false
  | some cd =>
      decide (cd.2 ≤ r2) &&
      decide (∀ l ∈ List.range cloud.length,
        l ≠ i → l ≠ j → l ≠ k → ¬ dist2 cd.1 (cloud.get! l) < r2)

/-- Modelled from the spec: seeding — the first (in index order, the
deterministic tie-break the spec asks for) triple of mutually acceptable
points whose ball of squared radius `r2` touches all three and encloses no
other point; `none` when no seed triangle exists at this radius. -/
def findSeed (cloud : List Point3) (r2 : ℚ) : Option (ℕ × ℕ × ℕ) :=
  ((List.range cloud.length).flatMap (fun i =>
    (List.range cloud.length).flatMap (fun j =>
      (List.range cloud.length).map (fun k => (i, j, k))))).find?
    (fun t => decide (t.1 < t.2.1) && decide (t.2.1 < t.2.2) &&
      triOk cloud r2 t.1 t.2.1 t.2.2)

/-- Modelled from the spec: pivoting about the front edge `(i, j)` whose
triangle's opposite vertex is `o` — the lowest-index point (deterministic
tie-break) other than `o` forming an acceptable triangle with the edge;
`none` leaves the edge as a boundary edge. -/
def pivotCandidate (cloud : List Point3) (r2 : ℚ) (i j o : ℕ) : Option ℕ :=
  (List.range cloud.length).find? (fun k => decide (k ≠ o) && triOk cloud r2 i j k)

/-- State of the advancing front: triangles emitted so far, active front
edges (each with its triangle's opposite vertex), boundary edges waiting
for a later larger-radius pass, and edges already pivoted (to close the
front instead of duplicating when a touched point already belongs to the
mesh). -/
structure BPState where
  tris : List (ℕ × ℕ × ℕ)
  front : List ((ℕ × ℕ) × ℕ)
  boundary : List ((ℕ × ℕ) × ℕ)
  edgesDone : List (ℕ × ℕ)
  deriving DecidableEq, Inhabited

/-- Modelled from the spec: the pivoting loop at one radius — process
front edges until the front is empty (the fuel argument bounds the loop
syntactically; each pass supplies enough for its front).  A pivot success
emits a triangle and pushes the two new edges; a failure moves the edge to
the boundary list for the next radius pass. -/
def pivotLoop (cloud : List Point3) (r2 : ℚ) : ℕ → BPState → BPState
  | 0, st => st
  | fuel + 1, st =>
      match st.front with
      | [] => st
      | e :: rest =>
          if e.1 ∈ st.edgesDone then
            pivotLoop cloud r2 fuel { st with front := rest }
          else
            match pivotCandidate cloud r2 e.1.1 e.1.2 e.2 with
            | some k =>
                pivotLoop cloud r2 fuel
                  { tris := (e.1.1, e.1.2, k) :: st.tris,
                    front := ((e.1.1, k), e.1.2) :: ((e.1.2, k), e.1.1) :: rest,
                    boundary := st.boundary,
                    edgesDone := e.1 :: st.edgesDone }
            | none =>
                pivotLoop cloud r2 fuel
                  { st with front := rest, boundary := e :: st.boundary }

/-- Modelled from the spec: one radius pass — reactivate the boundary
edges left by smaller radii, seed a first triangle when the mesh is still
empty, then pivot until the front is exhausted. -/
def radiusPass (cloud : List Point3) (st : BPState) (r2 : ℚ) : BPState :=
  let st0 : BPState := { st with front := st.boundary ++ st.front, boundary := [] }
  let st1 : BPState :=
    if st0.tris.isEmpty then
      match findSeed cloud r2 with
      | some t =>
          { st0 with
            tris := [t],
            front := ((t.1, t.2.1), t.2.2) :: ((t.2.1, t.2.2), t.1) ::
              ((t.1, t.2.2), t.2.1) :: st0.front }
      | none => st0
    else st0
  pivotLoop cloud r2 (cloud.length * cloud.length * cloud.length + st1.front.length) st1

/-- Modelled from the spec: the ball-pivoting core
(`create_from_point_cloud_ball_pivoting` lives in the external library,
not in this repository): the radius passes run in the given order and
their triangles accumulate in one state. -/
def create_mesh_ball_pivoting (cloud : List Point3) (r2s : List ℚ) : BPState :=
  r2s.foldl (radiusPass cloud) ⟨[], [], [], []⟩

/-- `ball_pivoting_reconstruction(pcd, radii)` from
`point_cloud_processor/utils.py` / `creator.py`: compute the average
nearest-neighbor distance, scale the relative radii by it
(`radii = [r * avg_dist for r in radii]`, in squared form
`r² * avgNNDist2`), and hand the absolute radii to the core. -/
def ball_pivoting_reconstruction (cloud : List Point3) (relRadii : List ℚ) : Mesh :=
  { vertices := cloud,
    triangles := (create_mesh_ball_pivoting cloud
      (relRadii.map (fun r => r ^ 2 * avgNNDist2 cloud))).tris }

/-- Uniform scaling of a whole cloud by the factor `s` (the rescaled input
of the invariance property). -/
def cloudScale (s : ℚ) (cloud : List Point3) : List Point3 := cloud.map (fun p => s • p)

theorem sum_map_sub_const (l : List Point3) (c : Point3) :
    (l.map (fun p => p - c)).sum = l.sum - (l.length : ℚ) • c := by
  induction l with
  | nil => simp
  | cons p t ih =>
      simp only [List.map_cons, List.sum_cons, ih, List.length_cons]
      push_cast
      rw [add_smul, one_smul]
      abel

theorem centroid_centerCloud (cloud : List Point3) (h : cloud ≠ []) :
    centroid (centerCloud cloud) = 0 := by
  have hn : (cloud.length : ℚ) ≠ 0 := by
    exact_mod_cast Nat.cast_ne_zero.mpr (List.length_pos.mpr h).ne'
  unfold centroid centerCloud
  rw [sum_map_sub_const, List.length_map]
  unfold centroid
  rw [smul_smul, mul_inv_cancel₀ hn, one_smul, sub_self, smul_zero]

theorem normSq_smul (a : ℚ) (p : Point3) : normSq (a • p) = a ^ 2 * normSq p := by
  obtain ⟨x, y, z⟩ := p
  simp only [normSq, Prod.smul_mk, smul_eq_mul]
  ring

theorem foldr_max_map_mul (a : ℚ) (ha : 0 ≤ a) (l : List ℚ) :
    (l.map (fun x => a * x)).foldr max 0 = a * l.foldr max 0 := by
  induction l with
  | nil => simp
  | cons x t ih =>
      simp only [List.map_cons, List.foldr_cons, ih]
      exact (mul_max_of_nonneg _ _ ha).symm

theorem maxNormSq_smul_map (a : ℚ) (ha : 0 ≤ a) (l : List Point3) :
    maxNormSq (l.map (fun p => a • p)) = a ^ 2 * maxNormSq l := by
  unfold maxNormSq
  rw [List.map_map]
  have hcomp : normSq ∘ (fun p : Point3 => a • p) = (fun x => a ^ 2 * x) ∘ normSq := by
    funext p; exact normSq_smul a p
  rw [hcomp, ← List.map_map (fun x => a ^ 2 * x) normSq]
  exact foldr_max_map_mul _ (pow_nonneg ha 2) _

/-- C6 counterexample: on the one-point cloud `[(1, 2, 3)]` the centered
cloud is `[(0,0,0)]`, the source's scale `np.max(np.linalg.norm(...))` is
`0` (its square equals `maxNormSq` of the centered cloud, as required of
the scale parameter), and the scaled result has maximum squared norm `0`,
not `1`: the claimed property fails for this nonempty input (in the Python
source the division `points /= 0.0` produces NaN coordinates there, which
have no norm `1.0 ± ε` either). -/
theorem c6_normalize_cex :
    (0 : ℚ) ^ 2 = maxNormSq (centerCloud [((1 : ℚ), (2 : ℚ), (3 : ℚ))]) ∧
      maxNormSq (normalizeWith 0 [((1 : ℚ), (2 : ℚ), (3 : ℚ))]) ≠ 1 := by
  constructor
  · norm_num [maxNormSq, centerCloud, centroid, normSq, Prod.ext_iff]
  · norm_num [maxNormSq, normalizeWith, centerCloud, centroid, normSq, Prod.ext_iff]

/-- C6 (amended): for every nonempty input cloud whose points are not all
equal to the centroid (equivalently, whose scale factor is nonzero), the
centering-and-scaling step of `preprocess_point_cloud` yields a cloud whose
centroid is exactly the origin and whose maximum squared point norm is
exactly `1` (exact rational arithmetic stands in for the float `± ε`);
`s` is the source's scale `np.max(np.linalg.norm(points, axis=1))`,
characterized by `0 < s` and `s ^ 2 = maxNormSq (centerCloud cloud)`.
Determinism is immediate: `normalizeWith` is a function of its input. -/
theorem c6_normalize_centroid_maxnorm (cloud : List Point3) (s : ℚ)
    (hne : cloud ≠ []) (hs : 0 < s)
    (hdef : s ^ 2 = maxNormSq (centerCloud cloud)) :
    centroid (normalizeWith s cloud) = 0 ∧ maxNormSq (normalizeWith s cloud) = 1 := by
  constructor
  · unfold normalizeWith
    unfold centroid
    rw [← List.smul_sum]
    have h0 : centroid (centerCloud cloud) = 0 := centroid_centerCloud cloud hne
    have hsum : (centerCloud cloud).sum = 0 := by
      unfold centroid at h0
      have hn : ((centerCloud cloud).length : ℚ) ≠ 0 := by
        have : centerCloud cloud ≠ [] := by
          unfold centerCloud
          simpa using hne
        exact_mod_cast Nat.cast_ne_zero.mpr (List.length_pos.mpr this).ne'
      have := congrArg (fun q : Point3 => ((centerCloud cloud).length : ℚ) • q) h0
      simpa [smul_smul, mul_inv_cancel₀ hn] using this
    rw [hsum, smul_zero, smul_zero]
  · unfold normalizeWith
    rw [maxNormSq_smul_map _ (by positivity), ← hdef]
    field_simp

/-- C6 witness: the two-point cloud `[(2,0,0), (0,0,0)]` is nonempty and
has scale `1`, and the amended theorem applies to it. -/
theorem c6_normalize_witness :
    centroid (normalizeWith 1 [((2 : ℚ), (0 : ℚ), (0 : ℚ)), ((0 : ℚ), (0 : ℚ), (0 : ℚ))]) = 0 ∧
      maxNormSq (normalizeWith 1 [((2 : ℚ), (0 : ℚ), (0 : ℚ)), ((0 : ℚ), (0 : ℚ), (0 : ℚ))]) = 1 :=
  c6_normalize_centroid_maxnorm _ 1 (by simp) (by norm_num)
    (by norm_num [maxNormSq, centerCloud, centroid, normSq, Prod.ext_iff])

theorem reflectUV_bounds (uv : ℚ × ℚ)
    (h1 : 0 ≤ uv.1) (h2 : uv.1 ≤ 1) (h3 : 0 ≤ uv.2) (h4 : uv.2 ≤ 1) :
    0 ≤ (reflectUV uv).1 ∧ 0 ≤ (reflectUV uv).2 ∧
      (reflectUV uv).1 + (reflectUV uv).2 ≤ 1 := by
  unfold reflectUV
  split
  · refine ⟨by simp; linarith, by simp; linarith, by simp; linarith⟩
  · exact ⟨h1, h3, by linarith⟩

theorem length_tetraSamplePoints (rand : ℕ → ℕ → ℚ × ℚ) (ppf : ℕ) :
    (tetraSamplePoints rand ppf).length = 4 * ppf := by
  simp [tetraSamplePoints, tetraFaces, facePoints, List.enum]
  ring

theorem baryPoint_comb (v0 v1 v2 : Point3) (uv : ℚ × ℚ)
    (h1 : 0 ≤ uv.1) (h2 : uv.1 ≤ 1) (h3 : 0 ≤ uv.2) (h4 : uv.2 ≤ 1) :
    ∃ w u v : ℚ, 0 ≤ w ∧ 0 ≤ u ∧ 0 ≤ v ∧ w + u + v = 1 ∧
      baryPoint v0 v1 v2 uv = w • v0 + u • v1 + v • v2 := by
  obtain ⟨hu, hv, huv⟩ := reflectUV_bounds uv h1 h2 h3 h4
  exact ⟨1 - (reflectUV uv).1 - (reflectUV uv).2, (reflectUV uv).1, (reflectUV uv).2,
    by linarith, hu, hv, by ring, rfl⟩

theorem mem_facePoints_hull (rand : ℕ → ℕ → ℚ × ℚ) (ppf : ℕ)
    (hrand : ∀ f t, 0 ≤ (rand f t).1 ∧ (rand f t).1 ≤ 1 ∧
      0 ≤ (rand f t).2 ∧ (rand f t).2 ≤ 1)
    (fIdx : ℕ) (face : ℕ × ℕ × ℕ) (hface : face ∈ tetraFaces)
    (p : Point3) (hp : p ∈ facePoints rand ppf fIdx face) : inTetraHull p := by
  simp only [facePoints, List.mem_map, List.mem_range] at hp
  obtain ⟨t, -, rfl⟩ := hp
  obtain ⟨hr1, hr2, hr3, hr4⟩ := hrand fIdx t
  simp only [tetraFaces, List.mem_cons, List.not_mem_nil, or_false] at hface
  obtain ⟨w, u, v, hw, hu, hv, hsum, heq⟩ :=
    baryPoint_comb (tetraVertices.get! face.1) (tetraVertices.get! face.2.1)
      (tetraVertices.get! face.2.2) (rand fIdx t) hr1 hr2 hr3 hr4
  rw [heq]
  rcases hface with rfl | rfl | rfl | rfl
  · exact ⟨w, u, 0, v, hw, hu, le_refl 0, hv, by linarith, by
      simp only [tetraVertices, List.get!]
      module⟩
  · exact ⟨0, w, u, v, le_refl 0, hw, hu, hv, by linarith, by
      simp only [tetraVertices, List.get!]
      module⟩
  · exact ⟨u, 0, w, v, hu, le_refl 0, hw, hv, by linarith, by
      simp only [tetraVertices, List.get!]
      module⟩
  · exact ⟨w, v, u, 0, hw, hv, hu, le_refl 0, by linarith, by
      simp only [tetraVertices, List.get!]
      module⟩

theorem mem_tetraSamplePoints_hull (rand : ℕ → ℕ → ℚ × ℚ) (ppf : ℕ)
    (hrand : ∀ f t, 0 ≤ (rand f t).1 ∧ (rand f t).1 ≤ 1 ∧
      0 ≤ (rand f t).2 ∧ (rand f t).2 ≤ 1)
    (p : Point3) (hp : p ∈ tetraSamplePoints rand ppf) : inTetraHull p := by
  simp only [tetraSamplePoints, List.mem_flatMap] at hp
  obtain ⟨fi, hfi, hpf⟩ := hp
  refine mem_facePoints_hull rand ppf hrand fi.1 fi.2 ?_ p hpf
  have hmem : fi ∈ tetraFaces.enum := hfi
  simp only [tetraFaces, List.enum, List.enumFrom, List.mem_cons, List.not_mem_nil,
    or_false] at hmem
  rcases hmem with rfl | rfl | rfl | rfl <;> simp [tetraFaces]

/-- C9 counterexample: for `n = 1` (any sampler), `points_per_face = 1 // 4
= 0`, the stacked sample list is empty, and the padding `points[:extra]` of
an empty array is still empty, so `generate_tetrahedron_point_cloud`
returns 0 points, not exactly `n = 1`. -/
theorem c9_tetra_count_cex :
    (generate_tetrahedron_point_cloud 1 (fun _ _ => ((0 : ℚ), (0 : ℚ)))).length ≠ 1 := by
  simp [generate_tetrahedron_point_cloud, tetraSamplePoints, tetraFaces, facePoints,
    List.enum]

/-- C9 (amended): for every `n` that is `0` or at least `4`, and every
sampler producing `(u, v)` pairs in the unit square (`np.random.uniform(0, 1)`),
`generate_tetrahedron_point_cloud` returns exactly `n` points, each within
the convex hull of the 4 fixed tetrahedron vertices, padding or truncating
the per-face barycentric samples to hit `n` exactly; for `1 ≤ n ≤ 3` the
function instead returns the empty list (see the counterexample). -/
theorem c9_tetra_count_hull (n : ℕ) (rand : ℕ → ℕ → ℚ × ℚ)
    (hrand : ∀ f t, 0 ≤ (rand f t).1 ∧ (rand f t).1 ≤ 1 ∧
      0 ≤ (rand f t).2 ∧ (rand f t).2 ≤ 1)
    (hn : n = 0 ∨ 4 ≤ n) :
    (generate_tetrahedron_point_cloud n rand).length = n ∧
      ∀ p ∈ generate_tetrahedron_point_cloud n rand, inTetraHull p := by
  have hlen := length_tetraSamplePoints rand (n / 4)
  have hmem : ∀ p ∈ tetraSamplePoints rand (n / 4), inTetraHull p :=
    fun p hp => mem_tetraSamplePoints_hull rand (n / 4) hrand p hp
  simp only [generate_tetrahedron_point_cloud]
  rcases hn with rfl | hn4
  · rw [if_neg (by omega), if_neg (by omega)]
    exact ⟨by omega, hmem⟩
  · have h4 := Nat.div_add_mod n 4
    have hm4 : n % 4 < 4 := Nat.mod_lt _ (by norm_num)
    have hppf : 4 ≤ 4 * (n / 4) := by
      have : 1 ≤ n / 4 := (Nat.one_le_div_iff (by norm_num)).mpr hn4
      omega
    rw [if_neg (by omega)]
    by_cases hlt : (tetraSamplePoints rand (n / 4)).length < n
    · rw [if_pos hlt]
      constructor
      · rw [List.length_append, List.length_take]
        omega
      · intro p hp
        rcases List.mem_append.mp hp with h | h
        · exact hmem p h
        · exact hmem p (List.take_subset _ _ h)
    · rw [if_neg hlt]
      exact ⟨by omega, hmem⟩

/-- C9 witness: `n = 6` with the constant sampler `(1/3, 1/3)`. -/
theorem c9_tetra_count_witness :
    (generate_tetrahedron_point_cloud 6 (fun _ _ => ((1/3 : ℚ), (1/3 : ℚ)))).length = 6 ∧
      ∀ p ∈ generate_tetrahedron_point_cloud 6 (fun _ _ => ((1/3 : ℚ), (1/3 : ℚ))),
        inTetraHull p :=
  c9_tetra_count_hull 6 _ (fun _ _ => by norm_num) (Or.inr (by norm_num))

/-- C2: evaluation at the failing input.  A `.xyz` file whose lines each
hold two (not three) floats — e.g. the two lines `1 2` and `3 4` — is
malformed by the spec's flat-text format, so the claim demands
`FormatError`; but `np.loadtxt` parses it successfully into a 2-D array of
two columns, and the failure actually surfacing is the uncaught container
constructor `RuntimeError`, which is none of the three claimed error
kinds. -/
theorem c2_load_malformed_arity :
    load_point_cloud (.xyzFile [[some 1, some 2], [some 3, some 4]]) =
        .error .containerShape ∧
      LoadError.containerShape ≠ .notFound ∧
      LoadError.containerShape ≠ .formatUnsupported ∧
      LoadError.containerShape ≠ .formatMalformed ∧
      LoadError.containerShape ≠ .emptyResult :=
  ⟨rfl, by decide, by decide, by decide, by decide⟩

/-- C10: a well-formed `.xyz` file of exactly one line with three floats
makes `np.loadtxt` produce a 1-D (squeezed) array, and the point-container
constructor rejects that shape, so `load_point_cloud` raises instead of
returning the one-point cloud. -/
theorem c10_load_single_line_rejected :
    npLoadtxt [[some 1, some 2, some 3]] = .ok (.oneD [1, 2, 3]) ∧
      load_point_cloud (.xyzFile [[some 1, some 2, some 3]]) =
        .error .containerShape :=
  ⟨rfl, rfl⟩

theorem sum_fst (l : List Point3) : l.sum.1 = (l.map (fun p => p.1)).sum := by
  induction l with
  | nil => rfl
  | cons p t ih => simp [Prod.fst_add, ih]

theorem sum_snd_fst (l : List Point3) : l.sum.2.1 = (l.map (fun p => p.2.1)).sum := by
  induction l with
  | nil => rfl
  | cons p t ih => simp [Prod.snd_add, Prod.fst_add, ih]

theorem sum_snd_snd (l : List Point3) : l.sum.2.2 = (l.map (fun p => p.2.2)).sum := by
  induction l with
  | nil => rfl
  | cons p t ih => simp [Prod.snd_add, ih]

theorem list_sum_lb (xs : List ℚ) (a : ℚ) (h : ∀ x ∈ xs, a ≤ x) :
    (xs.length : ℚ) * a ≤ xs.sum := by
  induction xs with
  | nil => simp
  | cons x t ih =>
      have hx := h x (List.mem_cons_self x t)
      have ht := ih (fun y hy => h y (List.mem_cons_of_mem x hy))
      simp only [List.length_cons, List.sum_cons]
      push_cast
      nlinarith

theorem list_sum_ub (xs : List ℚ) (b : ℚ) (hne : xs ≠ []) (h : ∀ x ∈ xs, x < b) :
    xs.sum < (xs.length : ℚ) * b := by
  induction xs with
  | nil => exact absurd rfl hne
  | cons x t ih =>
      have hx := h x (List.mem_cons_self x t)
      rcases eq_or_ne t [] with rfl | htne
      · simpa using hx
      · have ht := ih htne (fun y hy => h y (List.mem_cons_of_mem x hy))
        simp only [List.length_cons, List.sum_cons]
        push_cast
        nlinarith

theorem floor_avg_eq (v : ℚ) (hv : 0 < v) (k : ℤ) (xs : List ℚ) (hne : xs ≠ [])
    (h : ∀ x ∈ xs, ⌊x / v⌋ = k) :
    ⌊(xs.length : ℚ)⁻¹ * xs.sum / v⌋ = k := by
  have hn : (0 : ℚ) < (xs.length : ℚ) := by
    exact_mod_cast Nat.cast_pos.mpr (List.length_pos.mpr hne)
  have hlb : ∀ x ∈ xs, (k : ℚ) * v ≤ x := by
    intro x hx
    have := (Int.floor_eq_iff.mp (h x hx)).1
    calc (k : ℚ) * v ≤ (x / v) * v := by
          have := mul_le_mul_of_nonneg_right this (le_of_lt hv)
          linarith
      _ = x := div_mul_cancel₀ x hv.ne'
  have hub : ∀ x ∈ xs, x < ((k : ℚ) + 1) * v := by
    intro x hx
    have h2 := (Int.floor_eq_iff.mp (h x hx)).2
    calc x = (x / v) * v := (div_mul_cancel₀ x hv.ne').symm
      _ < ((k : ℚ) + 1) * v := by
          have := mul_lt_mul_of_pos_right h2 hv
          push_cast at this ⊢
          linarith
  have hsl : (xs.length : ℚ) * ((k : ℚ) * v) ≤ xs.sum := list_sum_lb xs _ hlb
  have hsu : xs.sum < (xs.length : ℚ) * (((k : ℚ) + 1) * v) := list_sum_ub xs _ hne hub
  rw [Int.floor_eq_iff]
  constructor
  · rw [le_div_iff₀ hv]
    rw [inv_mul_eq_div, le_div_iff₀ hn]
    linarith
  · rw [div_lt_iff₀ hv]
    rw [inv_mul_eq_div, div_lt_iff₀ hn]
    linarith

theorem voxelIdx_centroid (v : ℚ) (hv : 0 < v) (l : List Point3) (key : ℤ × ℤ × ℤ)
    (hne : l ≠ []) (h : ∀ p ∈ l, voxelIdx v p = key) :
    voxelIdx v (centroid l) = key := by
  obtain ⟨k1, k2, k3⟩ := key
  have h1 : ∀ x ∈ l.map (fun p : Point3 => p.1), ⌊x / v⌋ = k1 := by
    intro x hx
    obtain ⟨p, hp, rfl⟩ := List.mem_map.mp hx
    exact congrArg (fun t : ℤ × ℤ × ℤ => t.1) (h p hp)
  have h2 : ∀ x ∈ l.map (fun p : Point3 => p.2.1), ⌊x / v⌋ = k2 := by
    intro x hx
    obtain ⟨p, hp, rfl⟩ := List.mem_map.mp hx
    exact congrArg (fun t : ℤ × ℤ × ℤ => t.2.1) (h p hp)
  have h3 : ∀ x ∈ l.map (fun p : Point3 => p.2.2), ⌊x / v⌋ = k3 := by
    intro x hx
    obtain ⟨p, hp, rfl⟩ := List.mem_map.mp hx
    exact congrArg (fun t : ℤ × ℤ × ℤ => t.2.2) (h p hp)
  have hne1 : l.map (fun p : Point3 => p.1) ≠ [] := by simpa using hne
  have hne2 : l.map (fun p : Point3 => p.2.1) ≠ [] := by simpa using hne
  have hne3 : l.map (fun p : Point3 => p.2.2) ≠ [] := by simpa using hne
  have e1 := floor_avg_eq v hv k1 _ hne1 h1
  have e2 := floor_avg_eq v hv k2 _ hne2 h2
  have e3 := floor_avg_eq v hv k3 _ hne3 h3
  simp only [List.length_map] at e1 e2 e3
  unfold voxelIdx centroid
  simp only [Prod.smul_fst, Prod.smul_snd, smul_eq_mul, sum_fst, sum_snd_fst, sum_snd_snd]
  exact Prod.ext e1 (Prod.ext e2 e3)

theorem filter_cell_ne_nil (cloud : List Point3) (v : ℚ) (key : ℤ × ℤ × ℤ)
    (hk : key ∈ (cloud.map (voxelIdx v)).dedup) :
    cloud.filter (fun p => decide (voxelIdx v p = key)) ≠ [] := by
  obtain ⟨p, hp, hpk⟩ := List.mem_map.mp (List.mem_dedup.mp hk)
  exact List.ne_nil_of_mem (List.mem_filter.mpr ⟨hp, decide_eq_true hpk⟩)

theorem voxelIdx_cell_centroid (cloud : List Point3) (v : ℚ) (hv : 0 < v)
    (key : ℤ × ℤ × ℤ) (hk : key ∈ (cloud.map (voxelIdx v)).dedup) :
    voxelIdx v (centroid (cloud.filter (fun p => decide (voxelIdx v p = key)))) = key := by
  refine voxelIdx_centroid v hv _ key (filter_cell_ne_nil cloud v key hk) ?_
  intro p hp
  exact of_decide_eq_true (List.mem_filter.mp hp).2

theorem map_voxelIdx_downsample (cloud : List Point3) (v : ℚ) (hv : 0 < v) :
    (voxel_down_sample cloud v).map (voxelIdx v) = (cloud.map (voxelIdx v)).dedup := by
  unfold voxel_down_sample
  rw [List.map_map]
  have := List.map_congr_left (l := (cloud.map (voxelIdx v)).dedup)
    (f := voxelIdx v ∘ fun key =>
      centroid (cloud.filter (fun p => decide (voxelIdx v p = key)))) (g := id)
    (fun key hk => voxelIdx_cell_centroid cloud v hv key hk)
  rw [this, List.map_id]

theorem voxel_down_sample_idem (cloud : List Point3) (v : ℚ) (hv : 0 < v) :
    voxel_down_sample (voxel_down_sample cloud v) v = voxel_down_sample cloud v := by
  have hkeys := map_voxelIdx_downsample cloud v hv
  have hnodup : ((cloud.map (voxelIdx v)).dedup).Nodup := List.nodup_dedup _
  conv_lhs => rw [voxel_down_sample, hkeys, List.dedup_eq_self.mpr hnodup]
  have hfilter : ∀ key ∈ (cloud.map (voxelIdx v)).dedup,
      (voxel_down_sample cloud v).filter (fun p => decide (voxelIdx v p = key)) =
        [centroid (cloud.filter (fun p => decide (voxelIdx v p = key)))] := by
    intro key hk
    rw [voxel_down_sample, List.filter_map]
    have hpred : ((cloud.map (voxelIdx v)).dedup).filter
        ((fun p => decide (voxelIdx v p = key)) ∘ fun k2 =>
          centroid (cloud.filter (fun p => decide (voxelIdx v p = k2)))) =
        ((cloud.map (voxelIdx v)).dedup).filter (fun k2 => decide (k2 = key)) := by
      refine List.filter_congr ?_
      intro k2 hk2
      simp only [Function.comp_apply]
      rw [voxelIdx_cell_centroid cloud v hv k2 hk2]
    rw [hpred, List.filter_eq, List.count_eq_one_of_mem hnodup hk, List.replicate_one,
      List.map_singleton]
  have := List.map_congr_left (l := (cloud.map (voxelIdx v)).dedup)
    (f := fun key =>
      centroid ((voxel_down_sample cloud v).filter (fun p => decide (voxelIdx v p = key))))
    (g := fun key => centroid (cloud.filter (fun p => decide (voxelIdx v p = key))))
    (fun key hk => by
      simp only [hfilter key hk]
      simp [centroid])
  rw [this, voxel_down_sample]

/-- C8: for every cloud and positive voxel size, the (spec-modelled)
voxel downsampling never increases the point count, and re-running it with
the same voxel size on its own output changes nothing: each output point
is the centroid of the points of one occupied cell, hence lies in that
same cell, so the second pass sees exactly one point per occupied cell. -/
theorem c8_downsample_idem (cloud : List Point3) (v : ℚ) (hv : 0 < v) :
    (voxel_down_sample cloud v).length ≤ cloud.length ∧
      voxel_down_sample (voxel_down_sample cloud v) v = voxel_down_sample cloud v := by
  constructor
  · unfold voxel_down_sample
    rw [List.length_map]
    calc ((cloud.map (voxelIdx v)).dedup).length
        ≤ (cloud.map (voxelIdx v)).length := (List.dedup_sublist _).length_le
      _ = cloud.length := List.length_map _ _
  · exact voxel_down_sample_idem cloud v hv

/-- C8 witness: a concrete three-point cloud at voxel size 1. -/
theorem c8_downsample_idem_witness :
    (voxel_down_sample [((0 : ℚ), (0 : ℚ), (0 : ℚ)), ((1 : ℚ), (0 : ℚ), (0 : ℚ)),
        ((1/4 : ℚ), (0 : ℚ), (0 : ℚ))] 1).length ≤ 3 ∧
      voxel_down_sample (voxel_down_sample [((0 : ℚ), (0 : ℚ), (0 : ℚ)),
          ((1 : ℚ), (0 : ℚ), (0 : ℚ)), ((1/4 : ℚ), (0 : ℚ), (0 : ℚ))] 1) 1 =
        voxel_down_sample [((0 : ℚ), (0 : ℚ), (0 : ℚ)), ((1 : ℚ), (0 : ℚ), (0 : ℚ)),
          ((1/4 : ℚ), (0 : ℚ), (0 : ℚ))] 1 :=
  c8_downsample_idem _ 1 (by norm_num)

theorem get!_map_range {α : Type} [Inhabited α] (f : ℕ → α) (n i : ℕ) (h : i < n) :
    ((List.range n).map f).get! i = f i := by
  rw [List.get!_eq_getD, List.getD_eq_getElem?_getD, List.getElem?_map,
    List.getElem?_range h]
  rfl

/-- C1 counterexample: the claim asserts that a 4-point-only input gets
`DegenerateNeighborhoodError` on all 4 points; but on a 4-point cloud whose
points are mutually within the search radius — here a cluster of edge
`1/100` — every point has exactly 3 usable neighbors, which is not fewer
than 3, so point 0 is estimated, not degenerate. -/
theorem c1_degenerate_cex :
    (estimateAndOrient [((0 : ℚ), (0 : ℚ), (0 : ℚ)), ((1/100 : ℚ), (0 : ℚ), (0 : ℚ)),
        ((0 : ℚ), (1/100 : ℚ), (0 : ℚ)), ((0 : ℚ), (0 : ℚ), (1/100 : ℚ))] 30).get! 0 ≠
      PtResult.degenerate := by
  unfold estimateAndOrient
  rw [get!_map_range _ _ 0 (by norm_num)]
  have hlen : (usableNbrs [((0 : ℚ), (0 : ℚ), (0 : ℚ)), ((1/100 : ℚ), (0 : ℚ), (0 : ℚ)),
      ((0 : ℚ), (1/100 : ℚ), (0 : ℚ)), ((0 : ℚ), (0 : ℚ), (1/100 : ℚ))] 30 0).length = 3 := by
    unfold usableNbrs
    rw [show List.range (List.length [((0 : ℚ), (0 : ℚ), (0 : ℚ)),
      ((1/100 : ℚ), (0 : ℚ), (0 : ℚ)), ((0 : ℚ), (1/100 : ℚ), (0 : ℚ)),
      ((0 : ℚ), (0 : ℚ), (1/100 : ℚ))]) = [0, 1, 2, 3] from by decide]
    norm_num [List.filter_cons, dist2, normSq, searchRadius2, List.get!, Prod.sub_def]
  rw [hlen]
  simp

/-- C1 (amended): for every cloud and neighbor count `k`, a point's
estimation reports `DegenerateNeighborhoodError` exactly when it has fewer
than 3 usable neighbors, estimation continues for every other point of the
cloud (each gets a fit from its own neighborhood, and the result list
covers the whole cloud); and on a 4-point-only input whose points lie
pairwise farther apart than the search radius, the error is reported for
all 4 points and nothing else happens. -/
theorem c1_degenerate_iff (cloud : List Point3) (k : ℕ) :
    (estimateAndOrient cloud k).length = cloud.length ∧
      (∀ i, i < cloud.length →
        ((estimateAndOrient cloud k).get! i = PtResult.degenerate ↔
          (usableNbrs cloud k i).length < 3)) ∧
      (∀ i, i < cloud.length → 3 ≤ (usableNbrs cloud k i).length →
        (estimateAndOrient cloud k).get! i = PtResult.estimated (usableNbrs cloud k i)) ∧
      (cloud.length = 4 →
        (∀ i j, i < 4 → j < 4 → i ≠ j →
          searchRadius2 < dist2 (cloud.get! i) (cloud.get! j)) →
        ∀ i, i < 4 → (estimateAndOrient cloud k).get! i = PtResult.degenerate) := by
  have hget : ∀ i, i < cloud.length → (estimateAndOrient cloud k).get! i =
      if (usableNbrs cloud k i).length < 3 then PtResult.degenerate
      else PtResult.estimated (usableNbrs cloud k i) := by
    intro i hi
    unfold estimateAndOrient
    exact get!_map_range _ _ i hi
  refine ⟨by simp [estimateAndOrient], ?_, ?_, ?_⟩
  · intro i hi
    rw [hget i hi]
    by_cases h3 : (usableNbrs cloud k i).length < 3
    · simp [h3]
    · simp [h3]
  · intro i hi h3
    rw [hget i hi, if_neg (by omega)]
  · intro h4 hfar i hi
    have hempty : (usableNbrs cloud k i).length = 0 := by
      unfold usableNbrs
      have : (List.range cloud.length).filter
          (fun j => decide (j ≠ i ∧
            dist2 (cloud.get! i) (cloud.get! j) ≤ searchRadius2)) = [] := by
        rw [List.filter_eq_nil_iff]
        intro j hj
        rw [List.mem_range, h4] at hj
        simp only [decide_eq_true_eq, not_and]
        intro hne
        exact not_le.mpr (hfar i j hi hj (fun h => hne h.symm))
      rw [this, List.take_nil]
      rfl
    rw [hget i (by omega), if_pos (by omega)]

/-- C1 witness: the four tetrahedron vertices, pairwise at squared distance
at least 1 (far beyond the squared search radius 1/100), with `k = 30` as
in the source: all four points report the degenerate-neighborhood error. -/
theorem c1_degenerate_witness :
    (estimateAndOrient tetraVertices 30).get! 0 = PtResult.degenerate ∧
      (estimateAndOrient tetraVertices 30).get! 1 = PtResult.degenerate ∧
      (estimateAndOrient tetraVertices 30).get! 2 = PtResult.degenerate ∧
      (estimateAndOrient tetraVertices 30).get! 3 = PtResult.degenerate := by
  have h := (c1_degenerate_iff tetraVertices 30).2.2.2 (by norm_num [tetraVertices])
    (by
      intro i j hi hj hne
      interval_cases i <;> interval_cases j <;>
        norm_num [tetraVertices, dist2, normSq, searchRadius2, List.get!, Prod.sub_def] at hne ⊢)
  exact ⟨h 0 (by norm_num), h 1 (by norm_num), h 2 (by norm_num), h 3 (by norm_num)⟩

theorem get!_set_self (h : Heap) (r : ℕ) (a : PCDData) (hr : r < h.length) :
    (h.set r a).get! r = a := by
  rw [List.get!_eq_getD, List.getD_eq_getElem?_getD, List.getElem?_set_self hr]
  rfl

/-- C5 counterexample: on a one-object heap holding the cloud
`[(2,0,0), (0,0,0)]` (scale 1), `orient_normals` returns the same
reference it was given (aliasing), and after `preprocess_point_cloud` the
point data stored at the input reference has changed — the stages are not
value-producing. -/
theorem c5_pure_cex :
    (orient_normals [⟨[((2 : ℚ), (0 : ℚ), (0 : ℚ)), ((0 : ℚ), (0 : ℚ), (0 : ℚ))], none⟩] 0).2
        = 0 ∧
      ((preprocess_point_cloud 1
          [⟨[((2 : ℚ), (0 : ℚ), (0 : ℚ)), ((0 : ℚ), (0 : ℚ), (0 : ℚ))], none⟩] 0).1.get! 0).points
        ≠ (([⟨[((2 : ℚ), (0 : ℚ), (0 : ℚ)), ((0 : ℚ), (0 : ℚ), (0 : ℚ))], none⟩] : Heap).get!
            0).points := by
  constructor
  · rfl
  · norm_num [preprocess_point_cloud, centerCloud, centroid, List.get!, Prod.ext_iff]

/-- C5 (amended): for every heap, valid reference and scale,
`orient_normals` mutates the referenced cloud in place (attaching the
estimated normals, positions unchanged) and returns the same reference —
it aliases its input; `preprocess_point_cloud` overwrites the input
cloud's point data in place with the centered-and-scaled points (the
numpy view writes through to the input buffer) and returns a freshly
allocated reference holding the voxel-downsampled cloud. -/
theorem c5_inplace_alias (h : Heap) (r : ℕ) (s : ℚ) (hr : r < h.length) :
    (orient_normals h r).2 = r ∧
      ((orient_normals h r).1.get! r).points = (h.get! r).points ∧
      ((orient_normals h r).1.get! r).normals =
        some (estimateAndOrient (h.get! r).points 30) ∧
      (preprocess_point_cloud s h r).2 = h.length ∧
      (preprocess_point_cloud s h r).2 ≠ r ∧
      ((preprocess_point_cloud s h r).1.get! r).points =
        (centerCloud (h.get! r).points).map (fun p => s⁻¹ • p) ∧
      ((preprocess_point_cloud s h r).1.get!
          ((preprocess_point_cloud s h r).2)).points =
        voxel_down_sample ((centerCloud (h.get! r).points).map (fun p => s⁻¹ • p))
          (1/100) := by
  have hlen2 : ∀ a b : PCDData, ((h.set r a).set r b).length = h.length := by
    intro a b
    rw [List.length_set, List.length_set]
  have hset2 : ∀ a b : PCDData, ((h.set r a).set r b).get! r = b := by
    intro a b
    rw [List.set_set]
    exact get!_set_self h r b hr
  refine ⟨rfl, ?_, ?_, ?_, ?_, ?_, ?_⟩
  · unfold orient_normals
    rw [get!_set_self h r _ hr]
  · unfold orient_normals
    rw [get!_set_self h r _ hr]
  · unfold preprocess_point_cloud
    simp only [List.length_set]
  · unfold preprocess_point_cloud
    simp only [List.length_set]
    omega
  · unfold preprocess_point_cloud
    simp only []
    rw [List.get!_eq_getD, List.getD_eq_getElem?_getD,
      List.getElem?_append_left (by rw [hlen2]; exact hr)]
    rw [← List.getD_eq_getElem?_getD, ← List.get!_eq_getD, hset2]
  · unfold preprocess_point_cloud
    simp only [List.length_set]
    rw [List.get!_eq_getD, List.getD_eq_getElem?_getD,
      List.getElem?_append_right (by simp only [List.length_set]; exact le_refl _)]
    simp only [List.length_set, Nat.sub_self]
    rfl

/-- C5 witness: the one-object heap of the counterexample, reference 0,
scale 1. -/
theorem c5_inplace_alias_witness :
    (orient_normals [⟨[((2 : ℚ), (0 : ℚ), (0 : ℚ)), ((0 : ℚ), (0 : ℚ), (0 : ℚ))], none⟩] 0).2
        = 0 ∧
      ((orient_normals [⟨[((2 : ℚ), (0 : ℚ), (0 : ℚ)), ((0 : ℚ), (0 : ℚ), (0 : ℚ))], none⟩]
          0).1.get! 0).points =
        (([⟨[((2 : ℚ), (0 : ℚ), (0 : ℚ)), ((0 : ℚ), (0 : ℚ), (0 : ℚ))], none⟩] : Heap).get!
          0).points ∧
      ((orient_normals [⟨[((2 : ℚ), (0 : ℚ), (0 : ℚ)), ((0 : ℚ), (0 : ℚ), (0 : ℚ))], none⟩]
          0).1.get! 0).normals =
        some (estimateAndOrient
          (([⟨[((2 : ℚ), (0 : ℚ), (0 : ℚ)), ((0 : ℚ), (0 : ℚ), (0 : ℚ))], none⟩] : Heap).get!
            0).points 30) ∧
      (preprocess_point_cloud 1
          [⟨[((2 : ℚ), (0 : ℚ), (0 : ℚ)), ((0 : ℚ), (0 : ℚ), (0 : ℚ))], none⟩] 0).2 = 1 ∧
      (preprocess_point_cloud 1
          [⟨[((2 : ℚ), (0 : ℚ), (0 : ℚ)), ((0 : ℚ), (0 : ℚ), (0 : ℚ))], none⟩] 0).2 ≠ 0 ∧
      ((preprocess_point_cloud 1
          [⟨[((2 : ℚ), (0 : ℚ), (0 : ℚ)), ((0 : ℚ), (0 : ℚ), (0 : ℚ))], none⟩] 0).1.get!
          0).points =
        (centerCloud
          (([⟨[((2 : ℚ), (0 : ℚ), (0 : ℚ)), ((0 : ℚ), (0 : ℚ), (0 : ℚ))], none⟩] : Heap).get!
            0).points).map (fun p => (1 : ℚ)⁻¹ • p) ∧
      ((preprocess_point_cloud 1
          [⟨[((2 : ℚ), (0 : ℚ), (0 : ℚ)), ((0 : ℚ), (0 : ℚ), (0 : ℚ))], none⟩] 0).1.get!
          ((preprocess_point_cloud 1
            [⟨[((2 : ℚ), (0 : ℚ), (0 : ℚ)), ((0 : ℚ), (0 : ℚ), (0 : ℚ))], none⟩] 0).2)).points =
        voxel_down_sample
          ((centerCloud
            (([⟨[((2 : ℚ), (0 : ℚ), (0 : ℚ)), ((0 : ℚ), (0 : ℚ), (0 : ℚ))], none⟩] : Heap).get!
              0).points).map (fun p => (1 : ℚ)⁻¹ • p)) (1/100) :=
  c5_inplace_alias [⟨[((2 : ℚ), (0 : ℚ), (0 : ℚ)), ((0 : ℚ), (0 : ℚ), (0 : ℚ))], none⟩] 0 1
    (by norm_num)

theorem cellOf_res_one (lo hi : Point3) (p : Point3) : cellOf lo hi 1 p = (0, 0, 0) := by
  unfold cellOf cellCoord
  norm_num

theorem dedup_all_eq {α : Type} [DecidableEq α] (l : List α) (a : α) (hne : l ≠ [])
    (h : ∀ x ∈ l, x = a) : l.dedup = [a] := by
  induction l with
  | nil => exact absurd rfl hne
  | cons x t ih =>
      have hx : x = a := h x (List.mem_cons_self x t)
      subst hx
      rcases eq_or_ne t [] with rfl | htne
      · rfl
      · have hmem : x ∈ t := by
          obtain ⟨y, hy⟩ := List.exists_mem_of_ne_nil t htne
          have hyx := h y (List.mem_cons_of_mem x hy)
          exact hyx ▸ hy
        rw [List.dedup_cons_of_mem hmem]
        exact ih htne (fun y hy => h y (List.mem_cons_of_mem x hy))

theorem poissonFaces_single_origin : poissonFaces [((0 : ℤ), (0 : ℤ), (0 : ℤ))] 1 = [] := by
  rfl

/-- C4: `poisson_reconstruction` is total — for every cloud and every
depth the caller receives a mesh, and `main` exports it exactly when its
triangle count is nonzero, reporting failure on the empty mesh otherwise
(never an exception); the empty cloud yields the empty mesh at every
depth, and a degenerate depth (`depth = 0`, a grid of a single cell,
below the spec's legal range) yields a mesh with 0 triangles for every
cloud, still returned successfully. -/
theorem c4_poisson_total (cloud : List Point3) (depth : ℕ) :
    (mainPoissonHandling (poisson_reconstruction cloud depth) = MainAction.exportMesh ↔
      (poisson_reconstruction cloud depth).triangles ≠ []) ∧
      (poisson_reconstruction [] depth).triangles = [] ∧
      (poisson_reconstruction cloud 0).triangles = [] := by
  refine ⟨?_, rfl, ?_⟩
  · unfold mainPoissonHandling
    by_cases hpos : 0 < (poisson_reconstruction cloud depth).triangles.length
    · rw [if_pos hpos]
      exact iff_of_true rfl (List.ne_nil_of_length_pos hpos)
    · rw [if_neg hpos]
      have : (poisson_reconstruction cloud depth).triangles = [] := by
        rw [← List.length_eq_zero]
        omega
      simp [this]
  · match cloud with
    | [] => rfl
    | p :: ps =>
        have hcells : poissonCells (p :: ps) (ps.foldl pmin p) (ps.foldl pmax p)
            1 = [((0 : ℤ), (0 : ℤ), (0 : ℤ))] := by
          unfold poissonCells
          exact dedup_all_eq _ _ (by simp) (fun x hx => by
            obtain ⟨q, -, rfl⟩ := List.mem_map.mp hx
            exact cellOf_res_one _ _ q)
        show (poisson_reconstruction (p :: ps) 0).triangles = []
        simp only [poisson_reconstruction, pow_zero, hcells, poissonFaces_single_origin,
          List.length_nil, List.range_zero, List.flatMap_nil]

theorem pivotLoop_front_nil (cloud : List Point3) (r2 : ℚ) (fuel : ℕ) (st : BPState)
    (h : st.front = []) : pivotLoop cloud r2 fuel st = st := by
  cases fuel <;> simp [pivotLoop, h]

theorem radiusPass_init (cloud : List Point3) (r2 : ℚ) (h : findSeed cloud r2 = none) :
    radiusPass cloud ⟨[], [], [], []⟩ r2 = ⟨[], [], [], []⟩ := by
  unfold radiusPass
  simp only [h, List.append_nil, List.nil_append, List.isEmpty_nil, if_true]
  exact pivotLoop_front_nil _ _ _ _ rfl

theorem create_mesh_none (cloud : List Point3) (r2s : List ℚ)
    (h : ∀ r2 ∈ r2s, findSeed cloud r2 = none) :
    create_mesh_ball_pivoting cloud r2s = ⟨[], [], [], []⟩ := by
  unfold create_mesh_ball_pivoting
  induction r2s with
  | nil => rfl
  | cons r rs ih =>
      rw [List.foldl_cons, radiusPass_init cloud r (h r (List.mem_cons_self r rs))]
      exact ih (fun x hx => h x (List.mem_cons_of_mem r hx))

/-- C3: `ball_pivoting_reconstruction` is total — every input yields a
mesh, never an exception: on the empty cloud it returns the empty mesh
(0 triangles), and whenever no seed triangle exists for any of the scaled
radii it returns the empty mesh with 0 triangles as the signal to the
caller. -/
theorem c3_bpa_empty_signal (cloud : List Point3) (relRadii : List ℚ) :
    (ball_pivoting_reconstruction [] relRadii).triangles = [] ∧
      ((∀ r2 ∈ relRadii.map (fun r => r ^ 2 * avgNNDist2 cloud),
          findSeed cloud r2 = none) →
        (ball_pivoting_reconstruction cloud relRadii).triangles = []) := by
  constructor
  · unfold ball_pivoting_reconstruction
    rw [create_mesh_none [] _ (fun r2 _ => rfl)]
  · intro h
    unfold ball_pivoting_reconstruction
    rw [create_mesh_none cloud _ h]

/-- C3 witness: the empty cloud and a two-point cloud (no triple of
distinct indices exists, so no seed is ever found), both with the radius
list `[1]`. -/
theorem c3_bpa_empty_signal_witness :
    (ball_pivoting_reconstruction [] [(1 : ℚ)]).triangles = [] ∧
      (ball_pivoting_reconstruction
        [((0 : ℚ), (0 : ℚ), (0 : ℚ)), ((1 : ℚ), (0 : ℚ), (0 : ℚ))] [(1 : ℚ)]).triangles = [] :=
  ⟨(c3_bpa_empty_signal [] [(1 : ℚ)]).1,
   (c3_bpa_empty_signal [((0 : ℚ), (0 : ℚ), (0 : ℚ)), ((1 : ℚ), (0 : ℚ), (0 : ℚ))]
     [(1 : ℚ)]).2 (fun _ _ => rfl)⟩

theorem length_cloudScale (s : ℚ) (cloud : List Point3) :
    (cloudScale s cloud).length = cloud.length := List.length_map _ _

theorem get!_cloudScale (s : ℚ) (cloud : List Point3) (i : ℕ) :
    (cloudScale s cloud).get! i = s • cloud.get! i := by
  rw [cloudScale, List.get!_eq_getD, List.getD_eq_getElem?_getD, List.getElem?_map,
    List.get!_eq_getD, List.getD_eq_getElem?_getD]
  cases cloud[i]? with
  | none =>
      show (default : Point3) = s • (default : Point3)
      rw [show (default : Point3) = 0 from rfl, smul_zero]
  | some p => rfl

theorem dist2_smul (s : ℚ) (p q : Point3) : dist2 (s • p) (s • q) = s ^ 2 * dist2 p q := by
  unfold dist2
  rw [← smul_sub, normSq_smul]

theorem dot3_smul (s : ℚ) (p q : Point3) : dot3 (s • p) (s • q) = s ^ 2 * dot3 p q := by
  obtain ⟨x, y, z⟩ := p
  obtain ⟨u, v, w⟩ := q
  simp only [dot3, Prod.smul_mk, smul_eq_mul]
  ring

theorem sum_map_mul (b : ℚ) (l : List ℚ) : (l.map (fun x => b * x)).sum = b * l.sum := by
  induction l with
  | nil => simp
  | cons x t ih => simp [ih, mul_add]

theorem foldl_min_map_mul (a : ℚ) (ha : 0 ≤ a) (ds : List ℚ) (d : ℚ) :
    (ds.map (fun x => a * x)).foldl min (a * d) = a * ds.foldl min d := by
  induction ds generalizing d with
  | nil => rfl
  | cons x t ih =>
      simp only [List.map_cons, List.foldl_cons]
      rw [← mul_min_of_nonneg _ _ ha]
      exact ih (min d x)

theorem nnDist2_scale (s : ℚ) (cloud : List Point3) (i : ℕ) :
    nnDist2 (cloudScale s cloud) i = s ^ 2 * nnDist2 cloud i := by
  unfold nnDist2
  rw [length_cloudScale]
  have hmap : ((List.range cloud.length).filter (fun j => decide (j ≠ i))).map
      (fun j => dist2 ((cloudScale s cloud).get! i) ((cloudScale s cloud).get! j)) =
    (((List.range cloud.length).filter (fun j => decide (j ≠ i))).map
      (fun j => dist2 (cloud.get! i) (cloud.get! j))).map (fun d => s ^ 2 * d) := by
    rw [List.map_map]
    refine List.map_congr_left (fun j _ => ?_)
    simp only [Function.comp]
    rw [get!_cloudScale, get!_cloudScale, dist2_smul]
  rw [hmap]
  cases ((List.range cloud.length).filter (fun j => decide (j ≠ i))).map
      (fun j => dist2 (cloud.get! i) (cloud.get! j)) with
  | nil => simp
  | cons d ds =>
      simp only [List.map_cons]
      exact foldl_min_map_mul (s ^ 2) (sq_nonneg s) ds d

theorem avgNNDist2_scale (s : ℚ) (cloud : List Point3) :
    avgNNDist2 (cloudScale s cloud) = s ^ 2 * avgNNDist2 cloud := by
  unfold avgNNDist2
  rw [length_cloudScale]
  have hmap : (List.range cloud.length).map (nnDist2 (cloudScale s cloud)) =
      ((List.range cloud.length).map (nnDist2 cloud)).map (fun d => s ^ 2 * d) := by
    rw [List.map_map]
    exact List.map_congr_left (fun i _ => nnDist2_scale s cloud i)
  rw [hmap, sum_map_mul, mul_div_assoc]

theorem circumDet_scale (s : ℚ) (a b c : Point3) :
    circumDet (s • a) (s • b) (s • c) = s ^ 4 * circumDet a b c := by
  unfold circumDet
  rw [← smul_sub s b a, ← smul_sub s c a, dot3_smul, dot3_smul, dot3_smul]
  ring

theorem circumAlpha_scale (s : ℚ) (hs : s ≠ 0) (a b c : Point3) :
    circumAlpha (s • a) (s • b) (s • c) = circumAlpha a b c := by
  unfold circumAlpha
  rw [circumDet_scale, ← smul_sub s b a, ← smul_sub s c a, dot3_smul, dot3_smul, dot3_smul]
  rw [show s ^ 2 * dot3 (c - a) (c - a) *
      (s ^ 2 * dot3 (b - a) (b - a) - s ^ 2 * dot3 (b - a) (c - a)) =
    s ^ 4 * (dot3 (c - a) (c - a) * (dot3 (b - a) (b - a) - dot3 (b - a) (c - a))) from by
      ring]
  rw [show 2 * (s ^ 4 * circumDet a b c) = s ^ 4 * (2 * circumDet a b c) from by ring]
  exact mul_div_mul_left _ _ (pow_ne_zero 4 hs)

theorem circumBeta_scale (s : ℚ) (hs : s ≠ 0) (a b c : Point3) :
    circumBeta (s • a) (s • b) (s • c) = circumBeta a b c := by
  unfold circumBeta
  rw [circumDet_scale, ← smul_sub s b a, ← smul_sub s c a, dot3_smul, dot3_smul, dot3_smul]
  rw [show s ^ 2 * dot3 (b - a) (b - a) *
      (s ^ 2 * dot3 (c - a) (c - a) - s ^ 2 * dot3 (b - a) (c - a)) =
    s ^ 4 * (dot3 (b - a) (b - a) * (dot3 (c - a) (c - a) - dot3 (b - a) (c - a))) from by
      ring]
  rw [show 2 * (s ^ 4 * circumDet a b c) = s ^ 4 * (2 * circumDet a b c) from by ring]
  exact mul_div_mul_left _ _ (pow_ne_zero 4 hs)

theorem circumCenter_scale (s : ℚ) (hs : s ≠ 0) (a b c : Point3) :
    circumCenter (s • a) (s • b) (s • c) = s • circumCenter a b c := by
  unfold circumCenter
  rw [circumAlpha_scale s hs, circumBeta_scale s hs, ← smul_sub s b a, ← smul_sub s c a,
    smul_comm (circumAlpha a b c) s, smul_comm (circumBeta a b c) s,
    ← smul_add, ← smul_add]

theorem circumR2_scale (s : ℚ) (hs : s ≠ 0) (a b c : Point3) :
    circumR2 (s • a) (s • b) (s • c) = s ^ 2 * circumR2 a b c := by
  unfold circumR2
  rw [circumAlpha_scale s hs, circumBeta_scale s hs, ← smul_sub s b a, ← smul_sub s c a,
    smul_comm (circumAlpha a b c) s, smul_comm (circumBeta a b c) s,
    ← smul_add, normSq_smul]

theorem circumData_scale (s : ℚ) (hs : s ≠ 0) (a b c : Point3) :
    circumData (s • a) (s • b) (s • c) =
      (circumData a b c).map (fun cd => (s • cd.1, s ^ 2 * cd.2)) := by
  unfold circumData
  rw [circumDet_scale]
  by_cases hdet : circumDet a b c = 0
  · rw [if_pos (by rw [hdet]; ring), if_pos hdet]
    rfl
  · rw [if_neg (by exact mul_ne_zero (pow_ne_zero 4 hs) hdet), if_neg hdet]
    rw [Option.map_some']
    rw [circumCenter_scale s hs, circumR2_scale s hs]

theorem triOk_scale (s : ℚ) (hs : s ≠ 0) (cloud : List Point3) (r2 : ℚ) (i j k : ℕ) :
    triOk (cloudScale s cloud) (s ^ 2 * r2) i j k = triOk cloud r2 i j k := by
  have hsq : (0 : ℚ) < s ^ 2 := by positivity
  unfold triOk
  rw [get!_cloudScale, get!_cloudScale, get!_cloudScale, circumData_scale s hs]
  cases circumData (cloud.get! i) (cloud.get! j) (cloud.get! k) with
  | none => rfl
  | some cd =>
      have h1 : decide (s ^ 2 * cd.2 ≤ s ^ 2 * r2) = decide (cd.2 ≤ r2) :=
        decide_eq_decide.mpr (mul_le_mul_left hsq)
      have h2 : decide (∀ l ∈ List.range (cloudScale s cloud).length,
          l ≠ i → l ≠ j → l ≠ k →
            ¬ dist2 (s • cd.1) ((cloudScale s cloud).get! l) < s ^ 2 * r2) =
        decide (∀ l ∈ List.range cloud.length,
          l ≠ i → l ≠ j → l ≠ k → ¬ dist2 cd.1 (cloud.get! l) < r2) := by
        refine decide_eq_decide.mpr ?_
        rw [length_cloudScale]
        refine forall_congr' (fun l => ?_)
        refine imp_congr_right (fun _ => ?_)
        refine imp_congr_right (fun _ => ?_)
        refine imp_congr_right (fun _ => ?_)
        refine imp_congr_right (fun _ => ?_)
        rw [get!_cloudScale, dist2_smul]
        exact not_congr (mul_lt_mul_left hsq)
      simp only [Option.map_some']
      rw [h1, h2]

theorem find?_congr {α : Type} (p q : α → Bool) (l : List α)
    (h : ∀ x ∈ l, p x = q x) : l.find? p = l.find? q := by
  induction l with
  | nil => rfl
  | cons x t ih =>
      rw [List.find?_cons, List.find?_cons, h x (List.mem_cons_self x t)]
      cases q x with
      | true => rfl
      | false => exact ih (fun y hy => h y (List.mem_cons_of_mem x hy))

theorem findSeed_scale (s : ℚ) (hs : s ≠ 0) (cloud : List Point3) (r2 : ℚ) :
    findSeed (cloudScale s cloud) (s ^ 2 * r2) = findSeed cloud r2 := by
  unfold findSeed
  rw [length_cloudScale]
  exact find?_congr _ _ _ (fun t _ => by rw [triOk_scale s hs])

theorem pivotCandidate_scale (s : ℚ) (hs : s ≠ 0) (cloud : List Point3) (r2 : ℚ)
    (i j o : ℕ) :
    pivotCandidate (cloudScale s cloud) (s ^ 2 * r2) i j o =
      pivotCandidate cloud r2 i j o := by
  unfold pivotCandidate
  rw [length_cloudScale]
  exact find?_congr _ _ _ (fun k _ => by rw [triOk_scale s hs])

theorem pivotLoop_scale (s : ℚ) (hs : s ≠ 0) (cloud : List Point3) (r2 : ℚ)
    (fuel : ℕ) (st : BPState) :
    pivotLoop (cloudScale s cloud) (s ^ 2 * r2) fuel st = pivotLoop cloud r2 fuel st := by
  induction fuel generalizing st with
  | zero => rfl
  | succ n ih =>
      rw [pivotLoop, pivotLoop]
      cases hf : st.front with
      | nil => rfl
      | cons e rest =>
          by_cases hd : e.1 ∈ st.edgesDone
          · simp only [if_pos hd]
            exact ih _
          · simp only [if_neg hd, pivotCandidate_scale s hs]
            cases pivotCandidate cloud r2 e.1.1 e.1.2 e.2 with
            | some k => exact ih _
            | none => exact ih _

theorem radiusPass_scale (s : ℚ) (hs : s ≠ 0) (cloud : List Point3) (st : BPState)
    (r2 : ℚ) :
    radiusPass (cloudScale s cloud) st (s ^ 2 * r2) = radiusPass cloud st r2 := by
  simp only [radiusPass, findSeed_scale s hs, length_cloudScale, pivotLoop_scale s hs]

theorem foldl_radiusPass_scale (s : ℚ) (hs : s ≠ 0) (cloud : List Point3)
    (r2s : List ℚ) (st : BPState) :
    (r2s.map (fun x => s ^ 2 * x)).foldl (radiusPass (cloudScale s cloud)) st =
      r2s.foldl (radiusPass cloud) st := by
  induction r2s generalizing st with
  | nil => rfl
  | cons r rs ih =>
      simp only [List.map_cons, List.foldl_cons, radiusPass_scale s hs]
      exact ih _

/-- C7: for every cloud, every fixed relative-radius list and every
positive uniform scale factor `s`, ball-pivoting reconstruction of the
scaled cloud produces exactly the same triangle count (indeed the same
index-level triangle list) as on the unscaled cloud: the radii are
rescaled by the average nearest-neighbor distance, so every geometric
acceptance test of the algorithm is invariant under the scaling (exact
rational arithmetic even removes the claim's float tolerance). -/
theorem c7_bpa_scale_invariance (cloud : List Point3) (relRadii : List ℚ) (s : ℚ)
    (hs : 0 < s) :
    (ball_pivoting_reconstruction (cloudScale s cloud) relRadii).triangles.length =
      (ball_pivoting_reconstruction cloud relRadii).triangles.length := by
  unfold ball_pivoting_reconstruction create_mesh_ball_pivoting
  have hradii : relRadii.map (fun r => r ^ 2 * avgNNDist2 (cloudScale s cloud)) =
      (relRadii.map (fun r => r ^ 2 * avgNNDist2 cloud)).map (fun x => s ^ 2 * x) := by
    rw [avgNNDist2_scale, List.map_map]
    refine List.map_congr_left (fun r _ => ?_)
    simp only [Function.comp]
    ring
  rw [hradii, foldl_radiusPass_scale s (ne_of_gt hs) cloud]

/-- C7 witness: a two-point cloud scaled by `s = 2` with the radius list
`[1]`. -/
theorem c7_bpa_scale_invariance_witness :
    (ball_pivoting_reconstruction
        (cloudScale 2 [((0 : ℚ), (0 : ℚ), (0 : ℚ)), ((1 : ℚ), (0 : ℚ), (0 : ℚ))])
        [(1 : ℚ)]).triangles.length =
      (ball_pivoting_reconstruction
        [((0 : ℚ), (0 : ℚ), (0 : ℚ)), ((1 : ℚ), (0 : ℚ), (0 : ℚ))] [(1 : ℚ)]).triangles.length :=
  c7_bpa_scale_invariance _ _ 2 (by norm_num)
